import Mathlib

/-!
Shallow embedding of the files-api service core (upload / download / delete
orchestration over an object store and a metadata store), translated from the
Go sources in `internal/handlers`, `internal/config` and `internal/repository`.

Go strings are modelled as Lean `String` (byte-level operations such as UTF-8
percent-encoding work on explicit byte lists, `List Nat`, each entry < 256).
Go `int64` values are modelled as `Int`; `strconv.ParseInt` failure is `none`.
The object-store and metadata-store interfaces of the Go code are modelled as
a record of operations `Stores σ` over an abstract state `σ`, mirroring the
source's interface-based ports; handlers additionally emit a trace of the
store calls they issue, in call order.
-/

namespace FilesApi

/-! ## Configuration (internal/config/config.go) -/

/-- Configuration fields consumed by the handlers: maximum upload size, the
global MIME allow-list, and the per-category bucket names. -/
structure Config where
  maxFileSize : Int
  allowedFileTypes : List String
  imagesBucket : String
  miniaturesBucket : String
  documentsBucket : String

/-! ## Pure helpers translated from the Go standard library -/

/-- Backward scan of `filepath.Ext`: walks the reversed character list,
accumulating the suffix seen so far; stops with `[]` on a path separator,
returns the suffix from the last dot otherwise. -/
def goExtRev : List Char → List Char → List Char
  | [], _ => []
  | c :: rest, acc =>
    if c = '/' then []
    else if c = '.' then c :: acc
    else goExtRev rest (c :: acc)

/-- Go `filepath.Ext` (unix): the suffix beginning at the final dot in the
final slash-separated element of `path`; empty if there is no dot. -/
def goExt (path : String) : String := ⟨goExtRev path.data.reverse []⟩

/-- Prefix test on character lists (first argument is the candidate
leading part). -/
def listStartsWith : List Char → List Char → Bool
  | [], _ => true
  | _ :: _, [] => false
  | p :: ps, c :: cs => p == c && listStartsWith ps cs

/-- Go `strings.HasPrefix(s, p)`: `s` begins with `p`. -/
def goStartsWith (s p : String) : Bool := listStartsWith p.data s.data

/-- Decimal digit value of a character, if it is a digit. -/
def decDigitVal (c : Char) : Option Nat :=
  if 48 ≤ c.toNat ∧ c.toNat ≤ 57 then some (c.toNat - 48) else none

/-- Value of a non-empty all-digit character list, `none` otherwise. -/
def decDigitsVal : List Char → Option Nat
  | [] => none
  | [c] => decDigitVal c
  | c :: rest =>
    match decDigitVal c, decDigitsVal rest with
    | some d, some n => some (d * 10 ^ rest.length + n)
    | _, _ => none

/-- Go `strconv.ParseInt(s, 10, 64)`: optional sign, non-empty digit string,
result within int64 range; any failure (including range overflow, which Go
reports as an error) is `none`. -/
def goParseInt64 (s : String) : Option Int :=
  let core : List Char → Bool → Option Int := fun ds neg =>
    match decDigitsVal ds with
    | none => none
    | some n =>
      if neg then
        if n ≤ 2 ^ 63 then some (-(Int.ofNat n)) else none
      else
        if n ≤ 2 ^ 63 - 1 then some (Int.ofNat n) else none
  match s.data with
  | '+' :: rest => core rest false
  | '-' :: rest => core rest true
  | l => core l false

/-- UTF-8 byte sequence of a Unicode code point (as in Go's string encoding). -/
def utf8Bytes (n : Nat) : List Nat :=
  if n < 128 then [n]
  else if n < 2048 then [192 + n / 64, 128 + n % 64]
  else if n < 65536 then [224 + n / 4096, 128 + n / 64 % 64, 128 + n % 64]
  else [240 + n / 262144, 128 + n / 4096 % 64, 128 + n / 64 % 64, 128 + n % 64]

/-- Byte representation of a Go string (UTF-8 bytes of its characters). -/
def strBytes (s : String) : List Nat := (s.data.map (fun c => utf8Bytes c.toNat)).flatten

/-- Go `net/url` shouldEscape in path-segment mode (`url.PathEscape`): a byte
is kept verbatim iff it is an ASCII alphanumeric, one of the unreserved marks
`-` `_` `.` `~`, or one of the reserved characters the path-segment mode
allows unescaped (`$` `&` `+` `:` `=` `@`). -/
def shouldEscapeSeg (b : Nat) : Bool :=
  !((97 ≤ b && b ≤ 122) || (65 ≤ b && b ≤ 90) || (48 ≤ b && b ≤ 57) ||
    b == 45 || b == 95 || b == 46 || b == 126 ||
    b == 36 || b == 38 || b == 43 || b == 58 || b == 61 || b == 64)

/-- Uppercase hexadecimal digit, as a byte. -/
def upperHexDigit (n : Nat) : Nat := if n < 10 then 48 + n else 55 + n

/-- Percent-escaping of a byte sequence in path-segment mode: each escaped
byte becomes `%` (byte 37) followed by two uppercase hex digits. -/
def escapeSegBytes : List Nat → List Nat
  | [] => []
  | b :: rest =>
    (if shouldEscapeSeg b then [37, upperHexDigit (b / 16), upperHexDigit (b % 16)]
     else [b]) ++ escapeSegBytes rest

/-- Go `url.PathEscape` applied to a string, as output bytes. -/
def pathEscapeBytes (s : String) : List Nat := escapeSegBytes (strBytes s)

/-- Content-Disposition header value built by `DownloadFile` (download.go):
the format string is `attachment; filename*=UTF-8` followed by two apostrophe
bytes (39) and `url.PathEscape` of the stored display name. -/
def contentDispositionBytes (fileName : String) : List Nat :=
  strBytes "attachment; filename*=UTF-8" ++ [39, 39] ++ pathEscapeBytes fileName

/-! ## Bucket classifier and MIME validation (helpers.go, upload.go) -/

/-- Translation of `fileTypeToBucket` (helpers.go): maps the three known
categories to their configured buckets, errors on anything else. -/
def fileTypeToBucket (cfg : Config) (fileType : String) : Except String String :=
  if fileType = "portfolio-image" then .ok cfg.imagesBucket
  else if fileType = "miniature-image" then .ok cfg.miniaturesBucket
  else if fileType = "document" then .ok cfg.documentsBucket
  else .error "invalid fileType: must be portfolio-image, miniature-image, or document"

/-- Translation of `Handler.isAllowedContentType` (upload.go): the content
type is accepted iff it has some allow-list entry as a prefix. -/
def isAllowedContentType (cfg : Config) (contentType : String) : Bool :=
  cfg.allowedFileTypes.any (fun ct => goStartsWith contentType ct)

/-- Translation of `Handler.getBucketForFileType` (upload.go): resolve the
bucket, then check the content type against the category's accepted family. -/
def getBucketForFileType (cfg : Config) (fileType contentType : String) :
    Except String String :=
  match fileTypeToBucket cfg fileType with
  | .error e => .error e
  | .ok bucket =>
    if fileType = "portfolio-image" ∨ fileType = "miniature-image" then
      if ! goStartsWith contentType "image/" then
        .error (fileType ++ " requires image content type")
      else .ok bucket
    else if fileType = "document" then
      if ! goStartsWith contentType "application/pdf" &&
          ! (goStartsWith contentType "application/msword" ||
            goStartsWith contentType
              "application/vnd.openxmlformats-officedocument.wordprocessingml.document") then
        .error "document requires PDF or Word document content type"
      else .ok bucket
    else .ok bucket

/-- Whether an `Except` result is a success. -/
def isOkB {ε α : Type} : Except ε α → Bool
  | .ok _ => true
  | .error _ => false

/-! ## Data model and store ports -/

/-- Metadata row (`repository.StorageFile`), with the fields the handlers
read: id, S3 key and bucket, display name, size, MIME type, category. -/
structure StorageFile where
  id : Int
  s3Key : String
  s3Bucket : String
  fileName : String
  fileSize : Int
  mimeType : String
  fileType : String
deriving DecidableEq, Repr

/-- Stored object as kept by the object store: payload bytes and content
type. -/
structure GoObject where
  bytes : List Nat
  contentType : String
deriving DecidableEq, Repr

/-- Object info as `Stat` reports it (minio `ObjectInfo`): size and content
type. -/
structure GoObjStat where
  size : Int
  contentType : String
deriving DecidableEq, Repr

/-- Handle returned by the object-store `GetObject` call. The MinIO client's
`GetObject` is lazy: it returns a handle without contacting the store, and a
missing key surfaces as an error only at `Stat` (or at the first read). The
handle therefore carries the deferred `Stat` result, the bytes a full read
streams, and whether the streaming read fails mid-copy. -/
structure ObjHandle where
  stat : Except String GoObjStat
  bytes : List Nat
  readErr : Option String
deriving Repr

/-- Repository-layer error: GORM's record-not-found versus any other
database error (the repository wraps both with `fmt.Errorf(... %w ...)`,
which preserves the distinction for `errors.Is`). -/
inductive RepoErr where
  | recordNotFound
  | internal (msg : String)
deriving DecidableEq, Repr

/-- Store ports as the handlers consume them (the Go `storage.ObjectStore`
and `repository.Repository` interfaces), over an abstract store state `σ`.
Argument order follows the Go method signatures. -/
structure Stores (σ : Type) where
  putObject : σ → String → String → List Nat → Int → String → Except String σ
  getObject : σ → String → String → Except String ObjHandle
  deleteObject : σ → String → String → Except String σ
  createFile : σ → String → String → String → String → Int → String →
    Except RepoErr (StorageFile × σ)
  getFileByID : σ → Int → Except RepoErr StorageFile
  getFileByKey : σ → String → String → Except RepoErr StorageFile
  deleteFile : σ → Int → Except RepoErr σ

/-- Events recording each store call a handler issues, in order. -/
inductive StoreEvent where
  | putObject (bucket key : String)
  | createFile (bucket key : String)
  | deleteObject (bucket key : String)
  | getObject (bucket key : String)
  | getFileByKey (bucket key : String)
  | getFileByID (id : Int)
  | deleteFileRec (id : Int)
deriving DecidableEq, Repr

/-- HTTP response body as the handlers construct it. -/
inductive Body where
  | err (msg : String)
  | msg (m : String)
  | uploadOk (id : Int) (fileName : String) (fileSize : Int) (mimeType : String)
      (url : String) (fileType : String)
  | fileStream (contentType : String) (contentLength : Int)
      (contentDisposition : List Nat) (bytes : List Nat)
deriving DecidableEq, Repr

/-- HTTP response: status code and body. -/
structure Resp where
  status : Nat
  body : Body
deriving DecidableEq, Repr

/-- Result of running a handler: the response, the final store state, and the
trace of store calls issued. -/
structure Outcome (σ : Type) where
  resp : Resp
  state : σ
  trace : List StoreEvent

/-- Modelled from the spec: `commonHandlers.HandleRepositoryError` lives in
the external `portfolio-common` module, whose source is not part of this
repository. Per the spec (§4.4 step 2, §4.5 step 2), a record-not-found
repository error maps to 404 with the not-found message, and any other
repository error maps to 500 with the server message. -/
def handleRepositoryError (e : RepoErr) (notFoundMsg serverMsg : String) : Resp :=
  match e with
  | .recordNotFound => ⟨404, .err notFoundMsg⟩
  | .internal _ => ⟨500, .err serverMsg⟩

/-! ## Upload handler (upload.go `Handler.UploadFile`) -/

/-- Upload request as the handler reads it from the multipart form: presence
of the `file` part, its client-supplied filename, header size, header
content type, the `fileType` form value, the payload bytes, and whether
`file.Open()` succeeds. -/
structure UploadRequest where
  hasFile : Bool
  filename : String
  fileSize : Int
  contentType : String
  fileType : String
  content : List Nat
  openOk : Bool

/-- Object key generated by the upload handler: the fresh random identifier
(uuid) followed by `filepath.Ext` of the client filename. -/
def generatedKey (uuid filename : String) : String := uuid ++ goExt filename

/-- Translation of `Handler.UploadFile` (upload.go), with the drawn uuid
string passed in explicitly in place of `uuid.New().String()`. The branches
appear in source order; the compensating `DeleteObject` result is discarded
with `_ =` exactly as in the source. -/
def UploadFile {σ : Type} (cfg : Config) (S : Stores σ) (uuid : String)
    (req : UploadRequest) (s : σ) : Outcome σ :=
  if ! req.hasFile then
    ⟨⟨400, .err "file is required"⟩, s, []⟩
  else if req.fileType = "" then
    ⟨⟨400, .err "fileType is required (portfolio-image, miniature-image, document)"⟩, s, []⟩
  else if req.fileSize > cfg.maxFileSize then
    ⟨⟨400, .err ("file too large (max " ++ toString cfg.maxFileSize ++ " bytes)")⟩, s, []⟩
  else if ! isAllowedContentType cfg req.contentType then
    ⟨⟨400, .err "invalid file type"⟩, s, []⟩
  else
    let key := generatedKey uuid req.filename
    if ! req.openOk then
      ⟨⟨500, .err "failed to open file"⟩, s, []⟩
    else
      match getBucketForFileType cfg req.fileType req.contentType with
      | .error e => ⟨⟨400, .err e⟩, s, []⟩
      | .ok bucket =>
        match S.putObject s bucket key req.content req.fileSize req.contentType with
        | .error _ => ⟨⟨500, .err "failed to upload file"⟩, s, [.putObject bucket key]⟩
        | .ok s1 =>
          match S.createFile s1 bucket key req.filename req.fileType req.fileSize
              req.contentType with
          | .error _ =>
            let s2 := match S.deleteObject s1 bucket key with
              | .ok s2 => s2
              | .error _ => s1
            ⟨⟨500, .err "failed to create file record"⟩, s2,
              [.putObject bucket key, .createFile bucket key, .deleteObject bucket key]⟩
          | .ok (fileRecord, s2) =>
            ⟨⟨200, .uploadOk fileRecord.id fileRecord.fileName fileRecord.fileSize
                fileRecord.mimeType ("/api/v1/files/" ++ req.fileType ++ "/" ++ key)
                req.fileType⟩, s2,
              [.putObject bucket key, .createFile bucket key]⟩

/-! ## Download handler (download.go `Handler.DownloadFile`) -/

/-- Removal of a single leading slash from the wildcard key parameter
(gin's `*key` param includes the `/`). -/
def stripLeadingSlash (key : String) : String :=
  match key.data with
  | '/' :: rest => ⟨rest⟩
  | _ => key

/-- Translation of `Handler.DownloadFile` (download.go): a `GetObject` error
answers 404 "file not found in storage"; an `object.Stat()` error answers
500 "failed to get file info"; otherwise the Content-Type/Content-Length/
Content-Disposition headers are set from the stat and the row's display
name and the body is streamed with `io.Copy`, whose failure makes the
handler attempt the 500 "failed to stream file" error response — the model
records that attempt as the outcome. The fire-and-forget audit log call
does not affect the outcome and is not modelled. -/
def DownloadFile {σ : Type} (cfg : Config) (S : Stores σ) (fileType rawKey : String)
    (s : σ) : Outcome σ :=
  let key := stripLeadingSlash rawKey
  match fileTypeToBucket cfg fileType with
  | .error e => ⟨⟨400, .err e⟩, s, []⟩
  | .ok bucket =>
    match S.getFileByKey s bucket key with
    | .error e =>
      ⟨handleRepositoryError e "file not found in database" "failed to fetch file record",
        s, [.getFileByKey bucket key]⟩
    | .ok fileRecord =>
      match S.getObject s bucket key with
      | .error _ =>
        ⟨⟨404, .err "file not found in storage"⟩, s,
          [.getFileByKey bucket key, .getObject bucket key]⟩
      | .ok object =>
        match object.stat with
        | .error _ =>
          ⟨⟨500, .err "failed to get file info"⟩, s,
            [.getFileByKey bucket key, .getObject bucket key]⟩
        | .ok stat =>
          match object.readErr with
          | some _ =>
            ⟨⟨500, .err "failed to stream file"⟩, s,
              [.getFileByKey bucket key, .getObject bucket key]⟩
          | none =>
            ⟨⟨200, .fileStream stat.contentType stat.size
                (contentDispositionBytes fileRecord.fileName) object.bytes⟩, s,
              [.getFileByKey bucket key, .getObject bucket key]⟩

/-! ## Delete handler (`Handler.DeleteFile`) -/

/-- Translation of `Handler.DeleteFile`: parse the id, look up the record,
resolve the bucket from the stored category, delete the object, then delete
the metadata row. -/
def DeleteFile {σ : Type} (cfg : Config) (S : Stores σ) (idStr : String)
    (s : σ) : Outcome σ :=
  match goParseInt64 idStr with
  | none => ⟨⟨400, .err "invalid file ID"⟩, s, []⟩
  | some id =>
    match S.getFileByID s id with
    | .error e =>
      ⟨handleRepositoryError e "file not found" "failed to fetch file", s,
        [.getFileByID id]⟩
    | .ok file =>
      match fileTypeToBucket cfg file.fileType with
      | .error _ =>
        ⟨⟨500, .err "invalid file type in database"⟩, s, [.getFileByID id]⟩
      | .ok bucket =>
        match S.deleteObject s bucket file.s3Key with
        | .error _ =>
          ⟨⟨500, .err "failed to delete file from storage"⟩, s,
            [.getFileByID id, .deleteObject bucket file.s3Key]⟩
        | .ok s1 =>
          match S.deleteFile s1 id with
          | .error _ =>
            ⟨⟨500, .err "failed to delete file record"⟩, s1,
              [.getFileByID id, .deleteObject bucket file.s3Key, .deleteFileRec id]⟩
          | .ok s2 =>
            ⟨⟨200, .msg "file deleted successfully"⟩, s2,
              [.getFileByID id, .deleteObject bucket file.s3Key, .deleteFileRec id]⟩

/-! ## Executable model instantiation of the two stores

The MinIO-backed object store is modelled as an association list from
(bucket, key) to the stored object; the GORM-backed metadata store as an id
counter plus a list of rows. These refine the documented port semantics:
`PutObject` overwrites, `RemoveObject` of a missing key is not an error,
GORM `Delete` by primary key of a missing row is not an error, and `First`
with no match yields record-not-found. -/

/-- Object-store contents: (bucket, key, object) triples. -/
abbrev ObjStore := List (String × String × GoObject)

/-- Lookup of a stored object by bucket and key. -/
def objLookup : ObjStore → String → String → Option GoObject
  | [], _, _ => none
  | (b, k, o) :: rest, bucket, key =>
    if b == bucket && k == key then some o else objLookup rest bucket key

/-- Removal of an object by bucket and key (idempotent). -/
def objRemove (st : ObjStore) (bucket key : String) : ObjStore :=
  st.filter (fun e => !(e.1 == bucket && e.2.1 == key))

/-- Insertion (overwrite) of an object. -/
def objPut (st : ObjStore) (bucket key : String) (o : GoObject) : ObjStore :=
  (bucket, key, o) :: objRemove st bucket key

/-- Metadata store: the next id the database will assign, and the rows. -/
structure MetaStore where
  nextId : Int
  rows : List StorageFile
deriving DecidableEq, Repr

/-- Combined store state. -/
abbrev World := ObjStore × MetaStore

/-- Row lookup by (bucket, key), as the repository's
`WHERE s3_bucket = ? AND s3_key = ?` with `First`. -/
def metaFindByKey (rows : List StorageFile) (bucket key : String) : Option StorageFile :=
  rows.find? (fun r => r.s3Bucket == bucket && r.s3Key == key)

/-- Row lookup by primary key. -/
def metaFindByID (rows : List StorageFile) (id : Int) : Option StorageFile :=
  rows.find? (fun r => r.id == id)

/-- The store ports instantiated with the executable model stores. The
`getObject` model follows the MinIO client (minio.go wraps `client.GetObject`
directly): the call itself always succeeds with a handle, and a missing key
surfaces as the NoSuchKey error at `Stat`. -/
def realStores : Stores World where
  putObject := fun s bucket key bytes _size contentType =>
    .ok (objPut s.1 bucket key ⟨bytes, contentType⟩, s.2)
  getObject := fun s bucket key =>
    match objLookup s.1 bucket key with
    | some o => .ok ⟨.ok ⟨Int.ofNat o.bytes.length, o.contentType⟩, o.bytes, none⟩
    | none => .ok ⟨.error "The specified key does not exist.", [], none⟩
  deleteObject := fun s bucket key => .ok (objRemove s.1 bucket key, s.2)
  createFile := fun s bucket key fileName fileType fileSize mimeType =>
    let row : StorageFile :=
      ⟨s.2.nextId, key, bucket, fileName, fileSize, mimeType, fileType⟩
    .ok (row, (s.1, ⟨s.2.nextId + 1, s.2.rows ++ [row]⟩))
  getFileByID := fun s id =>
    match metaFindByID s.2.rows id with
    | some r => .ok r
    | none => .error .recordNotFound
  getFileByKey := fun s bucket key =>
    match metaFindByKey s.2.rows bucket key with
    | some r => .ok r
    | none => .error .recordNotFound
  deleteFile := fun s id => .ok (s.1, ⟨s.2.nextId, s.2.rows.filter (fun r => !(r.id == id))⟩)

/-- Failure-injection behaviour for the mock store used in witnesses. -/
structure MockBehavior where
  putOk : Bool
  createOk : Bool
  deleteObjOk : Bool
  record : StorageFile

/-- Stateless mock stores (test doubles, as the repository's own tests use):
each operation succeeds or fails according to the behaviour flags. -/
def mockStores (m : MockBehavior) : Stores Unit where
  putObject := fun _ _ _ _ _ _ => if m.putOk then .ok () else .error "put failed"
  getObject := fun _ _ _ => .error "no object"
  deleteObject := fun _ _ _ => if m.deleteObjOk then .ok () else .error "delete failed"
  createFile := fun _ _ _ _ _ _ _ =>
    if m.createOk then .ok (m.record, ()) else .error (.internal "db error")
  getFileByID := fun _ _ => .ok m.record
  getFileByKey := fun _ _ _ => .ok m.record
  deleteFile := fun _ _ => .error (.internal "db error")

/-! ## Concrete fixtures used by witnesses -/

/-- Concrete configuration with the default allow-list and size limit from
`config.Load` and the bucket names used by the repository's tests. -/
def cfgW : Config :=
  ⟨10485760,
   ["image/jpeg", "image/jpg", "image/png", "image/gif", "image/webp", "application/pdf"],
   "images", "miniatures", "documents"⟩

/-- Concrete well-formed uuid string, as produced by `uuid.New().String()`. -/
def uuidW : String := "123e4567-e89b-12d3-a456-426614174000"

/-! ## Helper lemmas -/

/-- Character predicate satisfied by every character of a canonical uuid
string: lowercase hex digit or dash. -/
def isUUIDChar (c : Char) : Bool :=
  (48 ≤ c.toNat && c.toNat ≤ 57) || (97 ≤ c.toNat && c.toNat ≤ 102) || c.toNat == 45

/-- Canonical uuid string shape: 36 characters, all hex digits or dashes. -/
def isUUIDString (s : String) : Bool :=
  s.data.length == 36 && s.data.all isUUIDChar

/-- Occurrence of two consecutive dots in a character list. -/
def containsDotDot : List Char → Bool
  | c1 :: c2 :: rest => (c1 == '.' && c2 == '.') || containsDotDot (c2 :: rest)
  | _ => false

theorem containsDotDot_of_no_dot :
    ∀ l : List Char, (∀ c ∈ l, c ≠ '.') → containsDotDot l = false
  | [] => fun _ => rfl
  | [_] => fun _ => rfl
  | c1 :: c2 :: rest => fun h => by
    have h1 : c1 ≠ '.' := h c1 (by simp)
    have hr : containsDotDot (c2 :: rest) = false :=
      containsDotDot_of_no_dot (c2 :: rest) (fun x hx => h x (List.mem_cons_of_mem c1 hx))
    simp [containsDotDot, hr, h1]

theorem containsDotDot_dot_cons (t : List Char) (ht : ∀ c ∈ t, c ≠ '.') :
    containsDotDot ('.' :: t) = false := by
  cases t with
  | nil => rfl
  | cons d t' =>
    have hd : d ≠ '.' := ht d (by simp)
    have hr := containsDotDot_of_no_dot (d :: t') ht
    simp [containsDotDot, hd, hr]

theorem containsDotDot_append (l1 l2 : List Char)
    (h1 : ∀ c ∈ l1, c ≠ '.') (h2 : containsDotDot l2 = false) :
    containsDotDot (l1 ++ l2) = false := by
  induction l1 with
  | nil => simpa
  | cons c rest ih =>
    have hc : c ≠ '.' := h1 c (by simp)
    have hrest := ih (fun x hx => h1 x (List.mem_cons_of_mem c hx))
    cases rest with
    | nil =>
      cases l2 with
      | nil => rfl
      | cons d l2' => simpa [containsDotDot, hc] using h2
    | cons d rest' => simpa [containsDotDot, hc] using hrest

theorem goExtRev_clean :
    ∀ (l acc : List Char), (∀ c ∈ acc, c ≠ '.' ∧ c ≠ '/') →
      goExtRev l acc = [] ∨
        ∃ t, goExtRev l acc = '.' :: t ∧ ∀ c ∈ t, c ≠ '.' ∧ c ≠ '/'
  | [], _, _ => by simp [goExtRev]
  | c :: rest, acc, h => by
    by_cases hs : c = '/'
    · simp [goExtRev, hs]
    · by_cases hd : c = '.'
      · right
        exact ⟨acc, by simp [goExtRev, hs, hd], h⟩
      · have heq : goExtRev (c :: rest) acc = goExtRev rest (c :: acc) := by
          simp [goExtRev, hs, hd]
        rw [heq]
        apply goExtRev_clean rest (c :: acc)
        intro x hx
        rcases List.mem_cons.mp hx with rfl | hx
        · exact ⟨hd, hs⟩
        · exact h x hx

/-- Structure of `filepath.Ext`: empty, or a dot followed by characters that
are neither dots nor slashes. -/
theorem goExt_shape (path : String) :
    (goExt path).data = [] ∨
      ∃ t, (goExt path).data = '.' :: t ∧ ∀ c ∈ t, c ≠ '.' ∧ c ≠ '/' :=
  goExtRev_clean path.data.reverse [] (by simp)

theorem isUUIDChar_ne (c : Char) (h : isUUIDChar c = true) : c ≠ '.' ∧ c ≠ '/' := by
  constructor <;> rintro rfl <;> simp [isUUIDChar] at h

/-! ## C5: generated keys are free of path traversal -/

/-- C5: for every client-supplied filename (including names with `..`
sequences, embedded `/`, or very long names), the key generated by upload —
a uuid-format random identifier followed by the filename's extension —
contains no `..` substring and no `/` character. -/
theorem generated_key_safe (uuid filename : String)
    (h : isUUIDString uuid = true) :
    containsDotDot (generatedKey uuid filename).data = false ∧
      ∀ c ∈ (generatedKey uuid filename).data, c ≠ '/' := by
  have hchars : ∀ c ∈ uuid.data, isUUIDChar c = true := by
    simp only [isUUIDString, Bool.and_eq_true, List.all_eq_true] at h
    exact h.2
  have hdata : (generatedKey uuid filename).data = uuid.data ++ (goExt filename).data := by
    simp [generatedKey, String.data_append]
  have huuid_ne : ∀ c ∈ uuid.data, c ≠ '.' ∧ c ≠ '/' :=
    fun c hc => isUUIDChar_ne c (hchars c hc)
  have hext := goExt_shape filename
  constructor
  · rw [hdata]
    apply containsDotDot_append _ _ (fun c hc => (huuid_ne _ hc).1)
    rcases hext with he | ⟨t, he, ht⟩
    · rw [he]; rfl
    · rw [he]
      exact containsDotDot_dot_cons t (fun c hc => (ht c hc).1)
  · intro c hc
    rw [hdata, List.mem_append] at hc
    rcases hc with hc | hc
    · exact (huuid_ne _ hc).2
    · rcases hext with he | ⟨t, he, ht⟩
      · simp [he] at hc
      · rw [he] at hc
        rcases List.mem_cons.mp hc with rfl | hc
        · decide
        · exact (ht _ hc).2

/-- Witness for C5 at a concrete uuid and an adversarial filename. -/
theorem generated_key_safe_witness :
    isUUIDString uuidW = true ∧
      containsDotDot (generatedKey uuidW "../../etc/passwd").data = false :=
  ⟨by decide, (generated_key_safe uuidW "../../etc/passwd" (by decide)).1⟩

/-! ## C6: dependence of the key on the client filename -/

/-- C6 counterexample: two upload requests differing only in the client
filename, with the same random identifier drawn, produce different keys —
the extension of the client filename is copied into the key. -/
theorem generated_key_ignores_filename_cex :
    generatedKey uuidW "a.png" ≠ generatedKey uuidW "a.txt" := by decide

/-- C6 (amended): the generated key depends on the client filename only
through its extension: with the same random identifier, filenames with equal
`filepath.Ext` yield equal keys. -/
theorem generated_key_extension_only (uuid f1 f2 : String)
    (h : goExt f1 = goExt f2) :
    generatedKey uuid f1 = generatedKey uuid f2 := by
  simp [generatedKey, h]

/-- Witness for the amended C6: equal extensions, different names. -/
theorem generated_key_extension_only_witness :
    generatedKey uuidW "a.png" = generatedKey uuidW "secret-report.png" :=
  generated_key_extension_only uuidW "a.png" "secret-report.png" (by decide)

/-! ## C7: classifier and MIME validation -/

/-- C7: categories tagged image accept exactly `image/`-prefixed content
types and map to the configured image buckets; `document` accepts exactly
the PDF and two Word MIME prefixes; any category outside the closed set is
an unknown-category error with no bucket. -/
theorem classifier_mime_families (cfg : Config) (ct ft : String) :
    ((∃ b, getBucketForFileType cfg "portfolio-image" ct = .ok b) ↔
      goStartsWith ct "image/" = true) ∧
    (∀ b, getBucketForFileType cfg "portfolio-image" ct = .ok b → b = cfg.imagesBucket) ∧
    ((∃ b, getBucketForFileType cfg "miniature-image" ct = .ok b) ↔
      goStartsWith ct "image/" = true) ∧
    (∀ b, getBucketForFileType cfg "miniature-image" ct = .ok b → b = cfg.miniaturesBucket) ∧
    ((∃ b, getBucketForFileType cfg "document" ct = .ok b) ↔
      (goStartsWith ct "application/pdf" || goStartsWith ct "application/msword" ||
        goStartsWith ct
          "application/vnd.openxmlformats-officedocument.wordprocessingml.document") =
        true) ∧
    (∀ b, getBucketForFileType cfg "document" ct = .ok b → b = cfg.documentsBucket) ∧
    (ft ≠ "portfolio-image" → ft ≠ "miniature-image" → ft ≠ "document" →
      getBucketForFileType cfg ft ct =
        .error "invalid fileType: must be portfolio-image, miniature-image, or document") := by
  refine ⟨?_, ?_, ?_, ?_, ?_, ?_, ?_⟩
  · cases h : goStartsWith ct "image/" <;>
      simp [getBucketForFileType, fileTypeToBucket, h]
  · intro b hb
    cases h : goStartsWith ct "image/" <;>
      simp [getBucketForFileType, fileTypeToBucket, h] at hb
    exact hb.symm
  · cases h : goStartsWith ct "image/" <;>
      simp [getBucketForFileType, fileTypeToBucket, h]
  · intro b hb
    cases h : goStartsWith ct "image/" <;>
      simp [getBucketForFileType, fileTypeToBucket, h] at hb
    exact hb.symm
  · cases h1 : goStartsWith ct "application/pdf" <;>
      cases h2 : goStartsWith ct "application/msword" <;>
      cases h3 : goStartsWith ct
        "application/vnd.openxmlformats-officedocument.wordprocessingml.document" <;>
      simp [getBucketForFileType, fileTypeToBucket, h1, h2, h3]
  · intro b hb
    cases h1 : goStartsWith ct "application/pdf" <;>
      cases h2 : goStartsWith ct "application/msword" <;>
      cases h3 : goStartsWith ct
        "application/vnd.openxmlformats-officedocument.wordprocessingml.document" <;>
      simp [getBucketForFileType, fileTypeToBucket, h1, h2, h3] at hb <;>
      exact hb.symm
  · intro h1 h2 h3
    simp [getBucketForFileType, fileTypeToBucket, h1, h2, h3]

/-! ## C9: Content-Disposition is percent-encoded and header-safe -/

theorem char_toNat_lt (c : Char) : c.toNat < 1114112 := by
  rcases c.valid with h | ⟨_, h⟩
  · exact Nat.lt_trans h (by norm_num)
  · exact h

theorem utf8Bytes_lt (n : Nat) (hn : n < 1114112) : ∀ b ∈ utf8Bytes n, b < 256 := by
  intro b hb
  unfold utf8Bytes at hb
  split_ifs at hb with h1 h2 h3 <;> simp at hb <;>
    rcases hb with rfl | rfl | rfl | rfl <;> omega

theorem strBytes_lt (s : String) : ∀ b ∈ strBytes s, b < 256 := by
  intro b hb
  simp only [strBytes, List.mem_flatten, List.mem_map] at hb
  obtain ⟨l, ⟨c, _, rfl⟩, hbl⟩ := hb
  exact utf8Bytes_lt c.toNat (char_toNat_lt c) b hbl

/-- Every output byte of path-segment percent-escaping of (8-bit) input is a
printable ASCII byte; in particular it is neither CR nor LF. -/
theorem escapeSegBytes_safe (l : List Nat) (hl : ∀ b ∈ l, b < 256) :
    ∀ b ∈ escapeSegBytes l, 32 ≤ b ∧ b ≤ 126 ∧ b ≠ 13 ∧ b ≠ 10 := by
  induction l with
  | nil => simp [escapeSegBytes]
  | cons x xs ih =>
    intro b hb
    have hx : x < 256 := hl x (by simp)
    have hxs := ih (fun y hy => hl y (List.mem_cons_of_mem x hy))
    simp only [escapeSegBytes, List.mem_append] at hb
    rcases hb with hb | hb
    · by_cases he : shouldEscapeSeg x = true
      · rw [if_pos he] at hb
        have h16a : x / 16 ≤ 15 := by omega
        have h16b : x % 16 ≤ 15 := by omega
        simp at hb
        rcases hb with rfl | rfl | rfl
        · exact ⟨by norm_num, by norm_num, by norm_num, by norm_num⟩
        · unfold upperHexDigit
          split_ifs <;> omega
        · unfold upperHexDigit
          split_ifs <;> omega
      · rw [if_neg he] at hb
        simp at hb
        subst hb
        have h' : shouldEscapeSeg b = false := by
          cases hsb : shouldEscapeSeg b
          · rfl
          · exact absurd hsb he
        simp only [shouldEscapeSeg, Bool.not_eq_false', Bool.or_eq_true,
          Bool.and_eq_true, decide_eq_true_eq, beq_iff_eq] at h'
        rcases h' with ((((h' | h') | h') | h') | h') | h' <;> omega
    · exact hxs b hb

/-- The Content-Disposition value built by the download handler contains only
printable ASCII bytes — no CR, LF, or other control bytes. -/
theorem contentDisposition_safe (name : String) :
    ∀ b ∈ contentDispositionBytes name, 32 ≤ b ∧ b ≤ 126 ∧ b ≠ 13 ∧ b ≠ 10 := by
  intro b hb
  simp only [contentDispositionBytes, List.mem_append] at hb
  rcases hb with (hb | hb) | hb
  · revert b hb
    decide
  · simp at hb
    subst hb
    exact ⟨by norm_num, by norm_num, by norm_num, by norm_num⟩
  · exact escapeSegBytes_safe (strBytes name) (strBytes_lt name) b hb

/-- C9: on a successful download, the Content-Disposition header value is
`attachment; filename*=UTF-8` + two apostrophes + the percent-encoding of
the stored display name, and for every stored display name this value
contains only printable ASCII bytes — never CR, LF, or other characters
enabling header injection. -/
theorem download_disposition_encoded {σ : Type} (cfg : Config) (S : Stores σ)
    (fileType rawKey : String) (s : σ) (bucket : String) (row : StorageFile)
    (object : ObjHandle) (stat : GoObjStat)
    (hb : fileTypeToBucket cfg fileType = .ok bucket)
    (hr : S.getFileByKey s bucket (stripLeadingSlash rawKey) = .ok row)
    (ho : S.getObject s bucket (stripLeadingSlash rawKey) = .ok object)
    (hstat : object.stat = .ok stat) (hread : object.readErr = none) :
    (DownloadFile cfg S fileType rawKey s).resp =
      ⟨200, .fileStream stat.contentType stat.size
        (strBytes "attachment; filename*=UTF-8" ++ [39, 39] ++
          pathEscapeBytes row.fileName) object.bytes⟩ ∧
    (∀ b ∈ contentDispositionBytes row.fileName,
      32 ≤ b ∧ b ≤ 126 ∧ b ≠ 13 ∧ b ≠ 10) := by
  constructor
  · simp only [DownloadFile, hb, hr, ho, hstat, hread, contentDispositionBytes]
  · exact contentDisposition_safe row.fileName

/-- Stored metadata row used by download/delete witnesses; its display name
holds a space, parentheses, a non-ASCII character and a CR-LF pair. -/
def rowW : StorageFile :=
  ⟨1, "k.pdf", "documents", "naïve file (2)\r\n.pdf", 2, "application/pdf", "document"⟩

/-- Stored object used by download witnesses. -/
def objW : GoObject := ⟨[37, 10], "application/pdf"⟩

/-- World used by download witnesses: one object and its metadata row. -/
def worldW : World := ([("documents", "k.pdf", objW)], ⟨2, [rowW]⟩)

/-- Witness for C9 on a concrete world with an adversarial display name. -/
theorem download_disposition_encoded_witness :
    (DownloadFile cfgW realStores "document" "/k.pdf" worldW).resp =
      ⟨200, .fileStream "application/pdf" 2
        (strBytes "attachment; filename*=UTF-8" ++ [39, 39] ++
          pathEscapeBytes "naïve file (2)\r\n.pdf") [37, 10]⟩ := by
  exact (download_disposition_encoded cfgW realStores "document" "/k.pdf" worldW
    "documents" rowW ⟨.ok ⟨2, "application/pdf"⟩, [37, 10], none⟩ ⟨2, "application/pdf"⟩
    rfl rfl rfl rfl rfl).1

/-- Witness for C7 at a concrete configuration, content type and category. -/
theorem classifier_mime_families_witness :
    (∃ b, getBucketForFileType cfgW "document" "application/pdf" = .ok b) ∧
      getBucketForFileType cfgW "video" "application/pdf" =
        .error "invalid fileType: must be portfolio-image, miniature-image, or document" := by
  have h := classifier_mime_families cfgW "application/pdf" "video"
  exact ⟨h.2.2.2.2.1.mpr (by decide),
    h.2.2.2.2.2.2 (by decide) (by decide) (by decide)⟩

/-! ## C1: compensating delete after metadata-create failure -/

/-- Metadata row returned by the mock repository in witnesses. -/
def recW : StorageFile := ⟨7, "k.png", "images", "a.png", 3, "image/png", "portfolio-image"⟩

/-- Valid upload request used by witnesses. -/
def reqW : UploadRequest := ⟨true, "a.png", 3, "image/png", "portfolio-image", [1, 2, 3], true⟩

/-- C1: on an upload where the object-store put succeeds and the metadata
create fails, exactly one compensating object-store delete is issued, with
the same (bucket, key) that was passed to put, and the reported error is
500 / "failed to create file record" — with no assumption on whether that
compensating delete succeeds or fails. -/
theorem upload_compensating_delete {σ : Type} (cfg : Config) (S : Stores σ)
    (uuid : String) (req : UploadRequest) (s : σ) (bucket : String) (s1 : σ) (e : RepoErr)
    (hfile : req.hasFile = true) (hft : req.fileType ≠ "")
    (hsize : ¬ req.fileSize > cfg.maxFileSize)
    (hmime : isAllowedContentType cfg req.contentType = true)
    (hopen : req.openOk = true)
    (hbucket : getBucketForFileType cfg req.fileType req.contentType = .ok bucket)
    (hput : S.putObject s bucket (generatedKey uuid req.filename) req.content
      req.fileSize req.contentType = .ok s1)
    (hcreate : S.createFile s1 bucket (generatedKey uuid req.filename) req.filename
      req.fileType req.fileSize req.contentType = .error e) :
    (UploadFile cfg S uuid req s).resp = ⟨500, .err "failed to create file record"⟩ ∧
    (UploadFile cfg S uuid req s).trace =
      [.putObject bucket (generatedKey uuid req.filename),
       .createFile bucket (generatedKey uuid req.filename),
       .deleteObject bucket (generatedKey uuid req.filename)] := by
  constructor <;>
    simp [UploadFile, hfile, hft, hsize, hmime, hopen, hbucket, hput, hcreate]

/-- Witness for C1: mock stores whose create fails (and whose compensating
delete also fails), on a concrete valid request. -/
theorem upload_compensating_delete_witness :
    (UploadFile cfgW (mockStores ⟨true, false, false, recW⟩) uuidW reqW ()).resp =
      ⟨500, .err "failed to create file record"⟩ := by
  exact (upload_compensating_delete cfgW (mockStores ⟨true, false, false, recW⟩) uuidW
    reqW () "images" () (.internal "db error") rfl (by decide) (by decide) (by decide)
    rfl rfl rfl rfl).1

/-! ## C2: object delete precedes metadata delete -/

/-- C2: once a delete request reaches the store-mutation phase (id parsed,
record found, bucket resolved), a failing object-store delete aborts with
500 / "failed to delete file from storage", leaves the store state
unchanged, and issues no metadata-store delete; and whenever the
metadata-store delete is issued, the trace shows the object-store delete
strictly before it. -/
theorem delete_object_before_metadata {σ : Type} (cfg : Config) (S : Stores σ)
    (idStr : String) (s : σ) (id : Int) (file : StorageFile) (bucket : String)
    (hid : goParseInt64 idStr = some id)
    (hget : S.getFileByID s id = .ok file)
    (hbucket : fileTypeToBucket cfg file.fileType = .ok bucket) :
    (∀ e, S.deleteObject s bucket file.s3Key = .error e →
      DeleteFile cfg S idStr s =
        ⟨⟨500, .err "failed to delete file from storage"⟩, s,
          [.getFileByID id, .deleteObject bucket file.s3Key]⟩) ∧
    (∀ s1, S.deleteObject s bucket file.s3Key = .ok s1 →
      (DeleteFile cfg S idStr s).trace =
        [.getFileByID id, .deleteObject bucket file.s3Key, .deleteFileRec id]) := by
  constructor
  · intro e he
    simp [DeleteFile, hid, hget, hbucket, he]
  · intro s1 hs1
    cases hdel : S.deleteFile s1 id <;>
      simp [DeleteFile, hid, hget, hbucket, hs1, hdel]

/-- Witness for C2: mock stores whose object delete fails. -/
theorem delete_object_before_metadata_witness :
    DeleteFile cfgW (mockStores ⟨true, true, false, recW⟩) "7" () =
      ⟨⟨500, .err "failed to delete file from storage"⟩, (),
        [.getFileByID 7, .deleteObject "images" "k.png"]⟩ := by
  exact (delete_object_before_metadata cfgW (mockStores ⟨true, true, false, recW⟩) "7" ()
    7 recW "images" (by decide) rfl rfl).1 "delete failed" rfl

/-! ## C8: global MIME allow-list gate -/

theorem getBucketForFileType_error_ne (cfg : Config) (ft ct e : String)
    (h : getBucketForFileType cfg ft ct = .error e) : e ≠ "invalid file type" := by
  unfold getBucketForFileType at h
  cases hb : fileTypeToBucket cfg ft with
  | error e2 =>
    rw [hb] at h
    simp at h
    subst h
    unfold fileTypeToBucket at hb
    split_ifs at hb
    simp at hb
    subst hb
    decide
  | ok bucket =>
    rw [hb] at h
    split_ifs at h with h1 h2 h3 h4 <;> simp at h
    · subst h
      rcases h1 with h1 | h1 <;> subst h1 <;> decide
    · subst h
      decide

/-- C8: given a present file, a non-empty category and an acceptable size,
an upload is answered with 400 / "invalid file type" exactly when the
claimed content type is outside the configured allow-list — whatever the
category is — and in that case the handler issues no store calls and leaves
the store state untouched (the rejection precedes bucket resolution and both
store ports). -/
theorem upload_rejects_unlisted_mime {σ : Type} (cfg : Config) (S : Stores σ)
    (uuid : String) (req : UploadRequest) (s : σ)
    (hfile : req.hasFile = true) (hft : req.fileType ≠ "")
    (hsize : ¬ req.fileSize > cfg.maxFileSize) :
    ((UploadFile cfg S uuid req s).resp = ⟨400, .err "invalid file type"⟩ ↔
      isAllowedContentType cfg req.contentType = false) ∧
    (isAllowedContentType cfg req.contentType = false →
      UploadFile cfg S uuid req s = ⟨⟨400, .err "invalid file type"⟩, s, []⟩) := by
  cases hmime : isAllowedContentType cfg req.contentType
  · refine ⟨⟨fun _ => rfl, fun _ => ?_⟩, fun _ => ?_⟩ <;>
      simp [UploadFile, hfile, hft, hsize, hmime]
  · refine ⟨⟨fun hresp => ?_, fun hc => by simp at hc⟩, fun hc => by simp at hc⟩
    exfalso
    revert hresp
    simp only [UploadFile, hfile, hft, hsize, hmime]
    cases hopen : req.openOk
    · simp [hopen]
    · cases hbk : getBucketForFileType cfg req.fileType req.contentType with
      | error e =>
        have hne := getBucketForFileType_error_ne cfg req.fileType req.contentType e hbk
        simp [hopen, hbk, hne]
      | ok bucket =>
        cases hput : S.putObject s bucket (generatedKey uuid req.filename) req.content
            req.fileSize req.contentType with
        | error _ => simp [hopen, hbk, hput]
        | ok s1 =>
          cases hcr : S.createFile s1 bucket (generatedKey uuid req.filename)
              req.filename req.fileType req.fileSize req.contentType with
          | error _ => simp [hopen, hbk, hput, hcr]
          | ok p => simp [hopen, hbk, hput, hcr]

/-- Witness for C8: a text/html upload is rejected as "invalid file type"
with no store calls, under the default allow-list. -/
theorem upload_rejects_unlisted_mime_witness :
    UploadFile cfgW (mockStores ⟨true, true, true, recW⟩) uuidW
      ⟨true, "a.html", 3, "text/html", "portfolio-image", [1], true⟩ () =
      ⟨⟨400, .err "invalid file type"⟩, (), []⟩ := by
  exact (upload_rejects_unlisted_mime cfgW (mockStores ⟨true, true, true, recW⟩) uuidW
    ⟨true, "a.html", 3, "text/html", "portfolio-image", [1], true⟩ ()
    rfl (by decide) (by decide)).2 (by decide)

/-! ## C10: download lookups are scoped to the category's bucket -/

/-- C10: with the model stores, a download of (category, key) can return a
file only when a metadata record exists whose bucket is the one mapped from
the category and whose key is the requested key after stripping at most one
leading slash; when no such record exists the result is the 404 response
"file not found in database" (so a key stored under a different category's
bucket is never served). -/
theorem download_scoped_to_bucket (cfg : Config) (c rawKey : String) (w : World)
    (bucket : String) (hbucket : fileTypeToBucket cfg c = .ok bucket) :
    ((DownloadFile cfg realStores c rawKey w).resp.status = 200 →
      ∃ row, metaFindByKey w.2.rows bucket (stripLeadingSlash rawKey) = some row ∧
        row.s3Bucket = bucket ∧ row.s3Key = stripLeadingSlash rawKey) ∧
    (metaFindByKey w.2.rows bucket (stripLeadingSlash rawKey) = none →
      (DownloadFile cfg realStores c rawKey w).resp =
        ⟨404, .err "file not found in database"⟩) := by
  constructor
  · intro h200
    cases hf : metaFindByKey w.2.rows bucket (stripLeadingSlash rawKey) with
    | none =>
      exfalso
      revert h200
      simp [DownloadFile, hbucket, realStores, hf, handleRepositoryError]
    | some row =>
      refine ⟨row, rfl, ?_⟩
      have hp := List.find?_some hf
      simp only [Bool.and_eq_true, beq_iff_eq] at hp
      exact hp
  · intro hnone
    simp [DownloadFile, hbucket, realStores, hnone, handleRepositoryError]

/-- World holding a key under the images bucket only, for the C10 witness. -/
def crossWorld : World := ([("images", "k.png", ⟨[1], "image/png"⟩)], ⟨2, [recW]⟩)

/-- Witness for C10: requesting an images-bucket key under the `document`
category yields the database 404, not the stored file. -/
theorem download_scoped_to_bucket_witness :
    (DownloadFile cfgW realStores "document" "/k.png" crossWorld).resp =
      ⟨404, .err "file not found in database"⟩ := by
  exact (download_scoped_to_bucket cfgW "document" "/k.png" crossWorld "documents"
    rfl).2 rfl

/-! ## C3: object missing behind a metadata record -/

/-- C3 (the claim is the intent, the code is a slip): the spec — and the
handler's own GetObject-error branch answering 404 "file not found in
storage", the branch the repository's test exercises with an eager mock
error — require an object absent behind a metadata record to yield 404.
But the MinIO client's `GetObject` (minio.go) is lazy and never fails for a
missing key; the absence surfaces as the NoSuchKey error at `object.Stat()`,
where download.go answers 500 "failed to get file info". This theorem
evaluates the handler at the failing input: a world whose metadata store
holds the row while its object store does not hold the object. -/
theorem download_missing_object_stat_500 :
    (DownloadFile cfgW realStores "document" "/k.pdf" ([], ⟨2, [rowW]⟩)).resp =
      ⟨500, .err "failed to get file info"⟩ := by decide

/-! ## C4: upload / download / delete / re-download round trip -/

/-- Upload request of the round-trip scenario: an accepted PNG payload under
category portfolio-image, with the claimed size equal to the payload size. -/
def rtRequest (content : List Nat) : UploadRequest :=
  ⟨true, "photo.png", Int.ofNat content.length, "image/png", "portfolio-image",
    content, true⟩

/-- Empty initial world: no objects, no rows, next row id 1. -/
def emptyWorld : World := ([], ⟨1, []⟩)

/-- Metadata row created by the round-trip upload. -/
def rtRow (content : List Nat) (cfg : Config) : StorageFile :=
  ⟨1, uuidW ++ ".png", cfg.imagesBucket, "photo.png", Int.ofNat content.length,
    "image/png", "portfolio-image"⟩

/-- World after the round-trip upload: the object and its metadata row. -/
def rtWorld (content : List Nat) (cfg : Config) : World :=
  ([(cfg.imagesBucket, uuidW ++ ".png", ⟨content, "image/png"⟩)],
    ⟨2, [rtRow content cfg]⟩)

theorem rt_upload (content : List Nat) (cfg : Config)
    (hallow : isAllowedContentType cfg "image/png" = true)
    (hsize : ¬ Int.ofNat content.length > cfg.maxFileSize) :
    UploadFile cfg realStores uuidW (rtRequest content) emptyWorld =
      ⟨⟨200, .uploadOk 1 "photo.png" (Int.ofNat content.length) "image/png"
          ("/api/v1/files/portfolio-image/" ++ (uuidW ++ ".png")) "portfolio-image"⟩,
        rtWorld content cfg,
        [.putObject cfg.imagesBucket (uuidW ++ ".png"),
         .createFile cfg.imagesBucket (uuidW ++ ".png")]⟩ := by
  have hkey : generatedKey uuidW "photo.png" = uuidW ++ ".png" := by decide
  have hsw : goStartsWith "image/png" "image/" = true := by decide
  simp [UploadFile, rtRequest, hallow, hsize, realStores, getBucketForFileType,
    fileTypeToBucket, hkey, hsw, objPut, objRemove, emptyWorld, rtWorld, rtRow]
  rw [Int.ofNat_eq_natCast] at hsize
  omega

theorem rt_download (content : List Nat) (cfg : Config) :
    DownloadFile cfg realStores "portfolio-image" ("/" ++ (uuidW ++ ".png"))
        (rtWorld content cfg) =
      ⟨⟨200, .fileStream "image/png" (Int.ofNat content.length)
          (contentDispositionBytes "photo.png") content⟩,
        rtWorld content cfg,
        [.getFileByKey cfg.imagesBucket (uuidW ++ ".png"),
         .getObject cfg.imagesBucket (uuidW ++ ".png")]⟩ := by
  have hstrip : stripLeadingSlash ("/" ++ (uuidW ++ ".png")) = uuidW ++ ".png" := by
    decide
  simp [DownloadFile, hstrip, fileTypeToBucket, realStores, metaFindByKey,
    objLookup, rtWorld, rtRow, List.find?]

theorem rt_delete (content : List Nat) (cfg : Config) :
    DeleteFile cfg realStores "1" (rtWorld content cfg) =
      ⟨⟨200, .msg "file deleted successfully"⟩, ([], ⟨2, []⟩),
        [.getFileByID 1, .deleteObject cfg.imagesBucket (uuidW ++ ".png"),
         .deleteFileRec 1]⟩ := by
  have hid : goParseInt64 "1" = some 1 := by decide
  simp [DeleteFile, hid, realStores, metaFindByID, fileTypeToBucket,
    objRemove, rtWorld, rtRow, List.find?]

theorem rt_redownload (cfg : Config) :
    (DownloadFile cfg realStores "portfolio-image" ("/" ++ (uuidW ++ ".png"))
        ([], ⟨2, []⟩)).resp = ⟨404, .err "file not found in database"⟩ := by
  simp [DownloadFile, fileTypeToBucket, realStores, metaFindByKey,
    handleRepositoryError, List.find?]

/-- C4: for any payload whose content type is in the allow-list and whose
size is within the limit, uploading it under portfolio-image succeeds with
the generated key; downloading that (category, key) streams exactly the
uploaded bytes with the stored content type; deleting the returned id
succeeds; and the repeated download then yields 404 — with upload, download
and delete all resolving the bucket through the single shared mapping. -/
theorem upload_download_delete_roundtrip (content : List Nat) (cfg : Config)
    (hallow : isAllowedContentType cfg "image/png" = true)
    (hsize : ¬ Int.ofNat content.length > cfg.maxFileSize) :
    (UploadFile cfg realStores uuidW (rtRequest content) emptyWorld).resp =
      ⟨200, .uploadOk 1 "photo.png" (Int.ofNat content.length) "image/png"
        ("/api/v1/files/portfolio-image/" ++ (uuidW ++ ".png")) "portfolio-image"⟩ ∧
    (UploadFile cfg realStores uuidW (rtRequest content) emptyWorld).state =
      rtWorld content cfg ∧
    (DownloadFile cfg realStores "portfolio-image" ("/" ++ (uuidW ++ ".png"))
        (rtWorld content cfg)).resp =
      ⟨200, .fileStream "image/png" (Int.ofNat content.length)
        (contentDispositionBytes "photo.png") content⟩ ∧
    (DeleteFile cfg realStores "1" (rtWorld content cfg)).resp =
      ⟨200, .msg "file deleted successfully"⟩ ∧
    (DownloadFile cfg realStores "portfolio-image" ("/" ++ (uuidW ++ ".png"))
        (DeleteFile cfg realStores "1" (rtWorld content cfg)).state).resp =
      ⟨404, .err "file not found in database"⟩ := by
  refine ⟨?_, ?_, ?_, ?_, ?_⟩
  · rw [rt_upload content cfg hallow hsize]
  · rw [rt_upload content cfg hallow hsize]
  · rw [rt_download content cfg]
  · rw [rt_delete content cfg]
  · rw [rt_delete content cfg]
    exact rt_redownload cfg

/-- Witness for C4: the concrete 10-byte PNG scenario from the spec, at the
default configuration. -/
theorem upload_download_delete_roundtrip_witness :
    (UploadFile cfgW realStores uuidW (rtRequest [0, 1, 2, 3, 4, 5, 6, 7, 8, 9])
        emptyWorld).resp =
      ⟨200, .uploadOk 1 "photo.png" 10 "image/png"
        ("/api/v1/files/portfolio-image/" ++ (uuidW ++ ".png")) "portfolio-image"⟩ := by
  exact (upload_download_delete_roundtrip [0, 1, 2, 3, 4, 5, 6, 7, 8, 9] cfgW
    (by decide) (by decide)).1

end FilesApi
